import Mathlib

/-!
Verification of the guild-member update handler
(src/handlers/guildMemberUpdate.ts).

The handler receives an old and a new snapshot of a guild member, compares
a fixed sequence of fields, and emits one event per detected difference;
when no difference was detected (tracked by the mutable boolean `emitted`
in the source) it emits a single fallback event `unhandledGuildMemberUpdate`.

We embed the handler as a pure function from the two snapshots to the
ordered list of emitted events; each `client.emit(...)` call in the source
appends one event to that list, in source order.
-/

/-- A role object, as carried in role events.  In the source a role is a
discord.js `Role`; the handler only reads `role.id` (for the
`roles.cache.has(role.id)` membership tests) and passes the whole object to
`client.emit`.  The `name` field stands for the rest of the object's
identity. -/
structure Role where
  id : Nat
  name : String
deriving DecidableEq, Repr

/-- A snapshot of a guild member, restricted to the fields the handler
reads.  `incomplete` models the discord.js `.partial` flag on the old
member (the new member is always a full `GuildMember`, i.e. the flag is
`false` there).  `roles` is the member's role cache in iteration order
(a discord.js `Collection` keyed by role id, so ids are unique in
practice).  `avatarURL` models the value returned by the `avatarURL()`
method: the resolved URL of the member's guild avatar, `none` when the
member has no guild avatar. -/
structure GuildMember where
  incomplete : Bool
  premiumSince : Option Nat
  roles : List Role
  nickname : Option String
  pending : Bool
  avatar : Option String
  avatarURL : Option String
deriving DecidableEq, Repr

/-- The events the handler can emit, with their positional payloads, one
constructor per `client.emit(name, ...)` call site in the source. -/
inductive Event where
  | guildMemberBoost (member : GuildMember)
  | guildMemberUnboost (member : GuildMember)
  | guildMemberRoleAdd (member : GuildMember) (role : Role)
  | guildMemberRoleRemove (member : GuildMember) (role : Role)
  | guildMemberNicknameUpdate (member : GuildMember) (oldNickname newNickname : Option String)
  | guildMemberEntered (member : GuildMember)
  | guildMemberAvatarAdd (member : GuildMember) (avatarURL : Option String)
  | guildMemberAvatarUpdate (member : GuildMember) (oldAvatarURL newAvatarURL : Option String)
  | guildMemberAvatarRemove (member : GuildMember) (avatarURL : Option String)
  | unhandledGuildMemberUpdate (oldMember newMember : GuildMember)
deriving DecidableEq, Repr

/-- Is this event the fallback `unhandledGuildMemberUpdate` event? -/
def Event.isUnhandled : Event → Bool
  | .unhandledGuildMemberUpdate _ _ => true
  | _ => false

/-- Is this event a `guildMemberRoleAdd` event? -/
def Event.isRoleAdd : Event → Bool
  | .guildMemberRoleAdd _ _ => true
  | _ => false

/-- Is this event a `guildMemberRoleRemove` event? -/
def Event.isRoleRemove : Event → Bool
  | .guildMemberRoleRemove _ _ => true
  | _ => false

/-- The `oldMember.roles.cache.has(role.id)` membership test of the
source: does the member have a role with the given id? -/
def hasRoleId (m : GuildMember) (i : Nat) : Bool :=
  m.roles.any (fun r => r.id == i)

/-- The body of the `if (!oldMember.partial)` block (lines 14-152 of the
source): the ordered list of specific events emitted, empty when the old
member is incomplete.  Each branch mirrors one `if`/`forEach` of the
source in source order; the `addedRoles`/`removedRoles` accumulation via
`forEach`+`push` over the role caches is an order-preserving filter. -/
def specificEvents (oldMember newMember : GuildMember) : List Event :=
  if oldMember.incomplete then []
  else
    (if oldMember.premiumSince.isNone && newMember.premiumSince.isSome then
      [Event.guildMemberBoost newMember] else [])
    ++ (if oldMember.premiumSince.isSome && newMember.premiumSince.isNone then
      [Event.guildMemberUnboost newMember] else [])
    ++ ((newMember.roles.filter (fun role => !(hasRoleId oldMember role.id))).map
      (Event.guildMemberRoleAdd oldMember))
    ++ ((oldMember.roles.filter (fun role => !(hasRoleId newMember role.id))).map
      (Event.guildMemberRoleRemove oldMember))
    ++ (if oldMember.nickname ≠ newMember.nickname then
      [Event.guildMemberNicknameUpdate newMember oldMember.nickname newMember.nickname] else [])
    ++ (if oldMember.pending ≠ newMember.pending then
      [Event.guildMemberEntered newMember] else [])
    ++ (if oldMember.avatar.isNone && newMember.avatar.isSome then
      [Event.guildMemberAvatarAdd newMember newMember.avatarURL] else [])
    ++ (if oldMember.avatar ≠ newMember.avatar then
      [Event.guildMemberAvatarUpdate newMember oldMember.avatarURL newMember.avatarURL] else [])
    ++ (if oldMember.avatar.isSome && newMember.avatar.isNone then
      [Event.guildMemberAvatarRemove newMember oldMember.avatarURL] else [])

/-- The full handler `handleGuildMemberUpdateEvent(client, oldMember,
newMember)`: the specific events, followed by the fallback event exactly
when no specific event was emitted (the source sets `emitted := true` at
every specific emit and checks `if (!emitted)` at line 164, which is
equivalent to the specific event list being empty). -/
def handleGuildMemberUpdateEvent (oldMember newMember : GuildMember) : List Event :=
  specificEvents oldMember newMember
    ++ (if (specificEvents oldMember newMember).isEmpty then
      [Event.unhandledGuildMemberUpdate oldMember newMember] else [])

/-- A complete old member with no differences from `sampleNew`. -/
def sampleOld : GuildMember :=
  { incomplete := false, premiumSince := none, roles := [⟨1, "B"⟩],
    nickname := some "Bob", pending := false, avatar := none, avatarURL := none }

/-- A new member identical to `sampleOld` except for the `incomplete`
field, which is always `false` for the new member. -/
def sampleNew : GuildMember :=
  { incomplete := false, premiumSince := none, roles := [⟨1, "B"⟩],
    nickname := some "Bob", pending := false, avatar := none, avatarURL := none }

example : handleGuildMemberUpdateEvent sampleOld sampleNew
    = [Event.unhandledGuildMemberUpdate sampleOld sampleNew] := by decide

example :
    handleGuildMemberUpdateEvent { sampleOld with incomplete := true, nickname := some "A" }
      sampleNew
    = [Event.unhandledGuildMemberUpdate
        { sampleOld with incomplete := true, nickname := some "A" } sampleNew] := by decide

/-- Old member for the role-diff scenario: role set {A, B}. -/
def oRoles : GuildMember := { sampleOld with roles := [⟨1, "A"⟩, ⟨2, "B"⟩] }

/-- New member for the role-diff scenario: role set {B, C}. -/
def nRoles : GuildMember := { sampleNew with roles := [⟨2, "B"⟩, ⟨3, "C"⟩] }

example :
    handleGuildMemberUpdateEvent oRoles nRoles
    = [Event.guildMemberRoleAdd oRoles ⟨3, "C"⟩,
       Event.guildMemberRoleRemove oRoles ⟨1, "A"⟩] := by
  decide

/-! ### Helper lemmas -/

/-- Every event of the specific block is a specific event, not the fallback:
every emit inside lines 14-152 uses a non-fallback event name. -/
lemma specific_not_unhandled (o n : GuildMember) :
    ∀ e ∈ specificEvents o n, e.isUnhandled = false := by
  intro e he
  unfold specificEvents at he
  split at he
  · simp at he
  · simp only [List.mem_append, List.mem_ite_nil_right, List.mem_singleton,
      List.mem_map] at he
    rcases he with ((((((((⟨_, rfl⟩ | ⟨_, rfl⟩) | ⟨r, -, rfl⟩) | ⟨r, -, rfl⟩) | ⟨_, rfl⟩) |
      ⟨_, rfl⟩) | ⟨_, rfl⟩) | ⟨_, rfl⟩) | ⟨_, rfl⟩) <;> rfl

/-- When the specific block emitted nothing, the handler output is exactly
the fallback event (line 164-166). -/
lemma handle_of_empty {o n : GuildMember} (h : specificEvents o n = []) :
    handleGuildMemberUpdateEvent o n = [Event.unhandledGuildMemberUpdate o n] := by
  unfold handleGuildMemberUpdateEvent
  simp [h]

/-- When the specific block emitted something, the handler output is exactly
those specific events: the fallback is suppressed by the `emitted` flag. -/
lemma handle_of_ne_nil {o n : GuildMember} (h : specificEvents o n ≠ []) :
    handleGuildMemberUpdateEvent o n = specificEvents o n := by
  unfold handleGuildMemberUpdateEvent
  simp [h]

/-- A non-fallback event is in the handler output iff it is in the specific
block's output. -/
lemma mem_handle_iff_of_not_unhandled {o n : GuildMember} {e : Event}
    (h : e.isUnhandled = false) :
    e ∈ handleGuildMemberUpdateEvent o n ↔ e ∈ specificEvents o n := by
  unfold handleGuildMemberUpdateEvent
  simp only [List.mem_append, List.mem_ite_nil_right, List.mem_singleton]
  constructor
  · rintro (h1 | ⟨_, rfl⟩)
    · exact h1
    · simp [Event.isUnhandled] at h
  · exact fun h1 => Or.inl h1

/-- The old member being incomplete short-circuits the whole specific block. -/
lemma specific_of_incomplete {o : GuildMember} (n : GuildMember)
    (h : o.incomplete = true) : specificEvents o n = [] := by
  unfold specificEvents
  simp [h]

/-- Boolean fact used for the no-difference case: an option is never both
absent and present. -/
lemma isNone_and_isSome {α : Type} (x : Option α) : (x.isNone && x.isSome) = false := by
  cases x <;> rfl

/-- Boolean fact used for the no-difference case: an option is never both
present and absent. -/
lemma isSome_and_isNone {α : Type} (x : Option α) : (x.isSome && x.isNone) = false := by
  cases x <;> rfl

/-! ### Claim theorems -/

/-- C1: for every invocation of the handler on an (old, new) snapshot pair,
exactly one of the following holds: one or more specific (non-fallback)
notifications were emitted, or exactly one `unhandledGuildMemberUpdate`
fallback notification was emitted — never both and never neither. -/
theorem handle_specific_xor_fallback (o n : GuildMember) :
    Xor' (∃ e ∈ handleGuildMemberUpdateEvent o n, e.isUnhandled = false)
      ((handleGuildMemberUpdateEvent o n).countP (fun e => e.isUnhandled) = 1) := by
  by_cases h : specificEvents o n = []
  · right
    rw [handle_of_empty h]
    refine ⟨by simp [Event.isUnhandled], ?_⟩
    rintro ⟨e, he, hf⟩
    simp only [List.mem_singleton] at he
    subst he
    simp [Event.isUnhandled] at hf
  · left
    rw [handle_of_ne_nil h]
    refine ⟨?_, ?_⟩
    · obtain ⟨e, he⟩ := List.exists_mem_of_ne_nil _ h
      exact ⟨e, he, specific_not_unhandled o n e he⟩
    · intro hc
      have h0 : (specificEvents o n).countP (fun e => e.isUnhandled) = 0 :=
        List.countP_eq_zero.mpr (fun a ha => by simp [specific_not_unhandled o n a ha])
      omega

/-- C2: for every snapshot pair where the old snapshot is flagged
incomplete, all field comparisons are skipped and exactly one
`unhandledGuildMemberUpdate` event fires, regardless of any field
differences between the two snapshots. -/
theorem handle_of_incomplete (o n : GuildMember) (h : o.incomplete = true) :
    handleGuildMemberUpdateEvent o n = [Event.unhandledGuildMemberUpdate o n] :=
  handle_of_empty (specific_of_incomplete n h)

/-- Witness for C2: an incomplete old member with a differing nickname
still yields exactly the fallback event. -/
theorem handle_of_incomplete_witness :
    ({ sampleOld with incomplete := true, nickname := some "A" } : GuildMember).incomplete
        = true ∧
      handleGuildMemberUpdateEvent
          { sampleOld with incomplete := true, nickname := some "A" } sampleNew
        = [Event.unhandledGuildMemberUpdate
            { sampleOld with incomplete := true, nickname := some "A" } sampleNew] :=
  ⟨rfl, handle_of_incomplete
    { sampleOld with incomplete := true, nickname := some "A" } sampleNew rfl⟩

/-- C3: for every snapshot pair where the old snapshot is not incomplete
and no compared field (boost timestamp, role set, nickname, pending flag,
avatar id) differs between old and new, exactly one
`unhandledGuildMemberUpdate` event fires and no other event fires. -/
theorem handle_of_no_diff (o n : GuildMember) (ho : o.incomplete = false)
    (hboost : o.premiumSince = n.premiumSince)
    (hradd : ∀ r ∈ n.roles, hasRoleId o r.id = true)
    (hrrem : ∀ r ∈ o.roles, hasRoleId n r.id = true)
    (hnick : o.nickname = n.nickname)
    (hpend : o.pending = n.pending)
    (hav : o.avatar = n.avatar) :
    handleGuildMemberUpdateEvent o n = [Event.unhandledGuildMemberUpdate o n] := by
  refine handle_of_empty ?_
  unfold specificEvents
  rw [if_neg (by simp [ho])]
  have hfa : List.filter (fun role => !hasRoleId o role.id) n.roles = [] :=
    List.filter_eq_nil_iff.mpr (fun a ha => by simp [hradd a ha])
  have hfb : List.filter (fun role => !hasRoleId n role.id) o.roles = [] :=
    List.filter_eq_nil_iff.mpr (fun a ha => by simp [hrrem a ha])
  rw [hboost, hnick, hpend, hav, hfa, hfb]
  simp [isNone_and_isSome, isSome_and_isNone]

/-- Witness for C3: on identical complete snapshots only the fallback
fires. -/
theorem handle_of_no_diff_witness :
    sampleOld.incomplete = false ∧
      handleGuildMemberUpdateEvent sampleOld sampleNew
        = [Event.unhandledGuildMemberUpdate sampleOld sampleNew] :=
  ⟨rfl, handle_of_no_diff sampleOld sampleNew rfl rfl (by decide) (by decide) rfl rfl rfl⟩

/-- Membership lemma for the boost branch (lines 24-27). -/
lemma boost_mem_specific (o n : GuildMember) (ho : o.incomplete = false)
    (h1 : o.premiumSince = none) (h2 : n.premiumSince.isSome = true) :
    Event.guildMemberBoost n ∈ specificEvents o n := by
  unfold specificEvents
  rw [if_neg (by simp [ho])]
  simp [h1, h2]

/-- Membership lemma for the nickname branch (lines 88-91). -/
lemma nickname_mem_specific (o n : GuildMember) (ho : o.incomplete = false)
    (h : o.nickname ≠ n.nickname) :
    Event.guildMemberNicknameUpdate n o.nickname n.nickname ∈ specificEvents o n := by
  unfold specificEvents
  rw [if_neg (by simp [ho])]
  simp [h]

/-- Membership lemma for the avatar-add branch (lines 117-120). -/
lemma avatarAdd_mem_specific (o n : GuildMember) (ho : o.incomplete = false)
    (h1 : o.avatar = none) (h2 : n.avatar.isSome = true) :
    Event.guildMemberAvatarAdd n n.avatarURL ∈ specificEvents o n := by
  unfold specificEvents
  rw [if_neg (by simp [ho])]
  simp [h1, h2]

/-- Membership lemma for the avatar-update branch (lines 133-136). -/
lemma avatarUpdate_mem_specific (o n : GuildMember) (ho : o.incomplete = false)
    (h : o.avatar ≠ n.avatar) :
    Event.guildMemberAvatarUpdate n o.avatarURL n.avatarURL ∈ specificEvents o n := by
  unfold specificEvents
  rw [if_neg (by simp [ho])]
  simp [h]

/-- Membership lemma for the avatar-remove branch (lines 148-151). -/
lemma avatarRemove_mem_specific (o n : GuildMember) (ho : o.incomplete = false)
    (h1 : o.avatar.isSome = true) (h2 : n.avatar = none) :
    Event.guildMemberAvatarRemove n o.avatarURL ∈ specificEvents o n := by
  unfold specificEvents
  rw [if_neg (by simp [ho])]
  simp [h1, h2]

/-- The gate-passed event appears in the specific block iff the pending
flag flipped (lines 102-105). -/
lemma entered_mem_specific_iff (o n : GuildMember) (ho : o.incomplete = false) :
    Event.guildMemberEntered n ∈ specificEvents o n ↔ o.pending ≠ n.pending := by
  unfold specificEvents
  rw [if_neg (by simp [ho])]
  simp

/-- C4: for every non-incomplete snapshot pair where the old avatar id is
present and the new one is absent, both `guildMemberAvatarUpdate` (with the
new member, old resolved URL, new resolved URL) and
`guildMemberAvatarRemove` (with the new member and old resolved URL) fire
in the same invocation. -/
theorem avatar_remove_fires_with_update (o n : GuildMember) (ho : o.incomplete = false)
    (h1 : o.avatar.isSome = true) (h2 : n.avatar = none) :
    Event.guildMemberAvatarUpdate n o.avatarURL n.avatarURL
        ∈ handleGuildMemberUpdateEvent o n ∧
      Event.guildMemberAvatarRemove n o.avatarURL ∈ handleGuildMemberUpdateEvent o n := by
  have hne : o.avatar ≠ n.avatar := by
    obtain ⟨a, ha⟩ := Option.isSome_iff_exists.mp h1
    rw [h2, ha]
    simp
  constructor
  · refine (mem_handle_iff_of_not_unhandled ?_).mpr (avatarUpdate_mem_specific o n ho hne)
    rfl
  · refine (mem_handle_iff_of_not_unhandled ?_).mpr (avatarRemove_mem_specific o n ho h1 h2)
    rfl

/-- Witness for C4: old avatar "x", new avatar absent. -/
theorem avatar_remove_fires_with_update_witness :
    (({ sampleOld with avatar := some "x", avatarURL := some "u" } : GuildMember).avatar.isSome
        = true) ∧
      Event.guildMemberAvatarUpdate sampleNew (some "u") none
          ∈ handleGuildMemberUpdateEvent
            { sampleOld with avatar := some "x", avatarURL := some "u" } sampleNew ∧
        Event.guildMemberAvatarRemove sampleNew (some "u")
          ∈ handleGuildMemberUpdateEvent
            { sampleOld with avatar := some "x", avatarURL := some "u" } sampleNew :=
  ⟨rfl, avatar_remove_fires_with_update
    { sampleOld with avatar := some "x", avatarURL := some "u" } sampleNew rfl rfl rfl⟩

/-- C6: for every non-incomplete snapshot pair where the old nickname
differs from the new nickname (including either being absent),
`guildMemberNicknameUpdate` fires with payload (new member, old nickname,
new nickname). -/
theorem nickname_update_fires (o n : GuildMember) (ho : o.incomplete = false)
    (h : o.nickname ≠ n.nickname) :
    Event.guildMemberNicknameUpdate n o.nickname n.nickname
      ∈ handleGuildMemberUpdateEvent o n := by
  refine (mem_handle_iff_of_not_unhandled ?_).mpr (nickname_mem_specific o n ho h)
  rfl

/-- Witness for C6: old nickname "Bob", new nickname absent; the event
carries (some "Bob", none). -/
theorem nickname_update_fires_witness :
    (sampleOld.nickname ≠ ({ sampleNew with nickname := none } : GuildMember).nickname) ∧
      Event.guildMemberNicknameUpdate { sampleNew with nickname := none } (some "Bob") none
        ∈ handleGuildMemberUpdateEvent sampleOld { sampleNew with nickname := none } :=
  ⟨by decide, nickname_update_fires sampleOld { sampleNew with nickname := none } rfl
    (by decide)⟩

/-- C7: for every non-incomplete snapshot pair, `guildMemberEntered` fires
iff the old pending flag differs from the new pending flag, in both
directions of the flip. -/
theorem entered_fires_iff_pending_flip (o n : GuildMember) (ho : o.incomplete = false) :
    Event.guildMemberEntered n ∈ handleGuildMemberUpdateEvent o n ↔
      o.pending ≠ n.pending := by
  refine (mem_handle_iff_of_not_unhandled ?_).trans (entered_mem_specific_iff o n ho)
  rfl

/-- Witness for C7: a pending flip from false to true makes the event fire,
via the iff applied at a concrete pair. -/
theorem entered_fires_iff_pending_flip_witness :
    sampleOld.incomplete = false ∧
      (Event.guildMemberEntered { sampleNew with pending := true }
          ∈ handleGuildMemberUpdateEvent sampleOld { sampleNew with pending := true } ↔
        sampleOld.pending ≠ ({ sampleNew with pending := true } : GuildMember).pending) :=
  ⟨rfl, entered_fires_iff_pending_flip sampleOld { sampleNew with pending := true } rfl⟩

/-- Filtering an `if`-guarded singleton whose element does not satisfy the
predicate yields nothing, whichever way the guard went. -/
lemma filter_ite_singleton {α : Type} (p : α → Bool) (c : Prop) [Decidable c] (x : α)
    (h : p x = false) :
    List.filter p (if c then [x] else []) = [] := by
  split <;> simp [h]

/-- The role-add events of the added-roles loop survive an `isRoleAdd`
filter untouched. -/
lemma filter_isRoleAdd_map_roleAdd (o : GuildMember) (l : List Role) :
    List.filter Event.isRoleAdd (l.map (Event.guildMemberRoleAdd o))
      = l.map (Event.guildMemberRoleAdd o) := by
  rw [List.filter_map]
  have h : (Event.isRoleAdd ∘ Event.guildMemberRoleAdd o) = fun _ => true := by
    funext r
    rfl
  rw [h, List.filter_true]

/-- The removed-roles loop contributes no role-add events. -/
lemma filter_isRoleAdd_map_roleRemove (o : GuildMember) (l : List Role) :
    List.filter Event.isRoleAdd (l.map (Event.guildMemberRoleRemove o)) = [] := by
  rw [List.filter_map]
  have h : (Event.isRoleAdd ∘ Event.guildMemberRoleRemove o) = fun _ => false := by
    funext r
    rfl
  rw [h, List.filter_false]
  rfl

/-- The role-remove events of the removed-roles loop survive an
`isRoleRemove` filter untouched. -/
lemma filter_isRoleRemove_map_roleRemove (o : GuildMember) (l : List Role) :
    List.filter Event.isRoleRemove (l.map (Event.guildMemberRoleRemove o))
      = l.map (Event.guildMemberRoleRemove o) := by
  rw [List.filter_map]
  have h : (Event.isRoleRemove ∘ Event.guildMemberRoleRemove o) = fun _ => true := by
    funext r
    rfl
  rw [h, List.filter_true]

/-- The added-roles loop contributes no role-remove events. -/
lemma filter_isRoleRemove_map_roleAdd (o : GuildMember) (l : List Role) :
    List.filter Event.isRoleRemove (l.map (Event.guildMemberRoleAdd o)) = [] := by
  rw [List.filter_map]
  have h : (Event.isRoleRemove ∘ Event.guildMemberRoleAdd o) = fun _ => false := by
    funext r
    rfl
  rw [h, List.filter_false]
  rfl

/-- The role-add events of the whole handler output are exactly the
added-roles loop output, in the iteration order of the new role cache. -/
lemma filter_isRoleAdd_handle (o n : GuildMember) (ho : o.incomplete = false) :
    (handleGuildMemberUpdateEvent o n).filter Event.isRoleAdd
      = (n.roles.filter (fun role => !(hasRoleId o role.id))).map
        (Event.guildMemberRoleAdd o) := by
  unfold handleGuildMemberUpdateEvent specificEvents
  rw [if_neg (by simp [ho])]
  simp only [List.filter_append, filter_isRoleAdd_map_roleAdd, filter_isRoleAdd_map_roleRemove,
    filter_ite_singleton Event.isRoleAdd _ (Event.guildMemberBoost n) rfl,
    filter_ite_singleton Event.isRoleAdd _ (Event.guildMemberUnboost n) rfl,
    filter_ite_singleton Event.isRoleAdd _
      (Event.guildMemberNicknameUpdate n o.nickname n.nickname) rfl,
    filter_ite_singleton Event.isRoleAdd _ (Event.guildMemberEntered n) rfl,
    filter_ite_singleton Event.isRoleAdd _ (Event.guildMemberAvatarAdd n n.avatarURL) rfl,
    filter_ite_singleton Event.isRoleAdd _
      (Event.guildMemberAvatarUpdate n o.avatarURL n.avatarURL) rfl,
    filter_ite_singleton Event.isRoleAdd _ (Event.guildMemberAvatarRemove n o.avatarURL) rfl,
    filter_ite_singleton Event.isRoleAdd _ (Event.unhandledGuildMemberUpdate o n) rfl]
  simp

/-- The role-remove events of the whole handler output are exactly the
removed-roles loop output, in the iteration order of the old role cache. -/
lemma filter_isRoleRemove_handle (o n : GuildMember) (ho : o.incomplete = false) :
    (handleGuildMemberUpdateEvent o n).filter Event.isRoleRemove
      = (o.roles.filter (fun role => !(hasRoleId n role.id))).map
        (Event.guildMemberRoleRemove o) := by
  unfold handleGuildMemberUpdateEvent specificEvents
  rw [if_neg (by simp [ho])]
  simp only [List.filter_append, filter_isRoleRemove_map_roleRemove,
    filter_isRoleRemove_map_roleAdd,
    filter_ite_singleton Event.isRoleRemove _ (Event.guildMemberBoost n) rfl,
    filter_ite_singleton Event.isRoleRemove _ (Event.guildMemberUnboost n) rfl,
    filter_ite_singleton Event.isRoleRemove _
      (Event.guildMemberNicknameUpdate n o.nickname n.nickname) rfl,
    filter_ite_singleton Event.isRoleRemove _ (Event.guildMemberEntered n) rfl,
    filter_ite_singleton Event.isRoleRemove _ (Event.guildMemberAvatarAdd n n.avatarURL) rfl,
    filter_ite_singleton Event.isRoleRemove _
      (Event.guildMemberAvatarUpdate n o.avatarURL n.avatarURL) rfl,
    filter_ite_singleton Event.isRoleRemove _ (Event.guildMemberAvatarRemove n o.avatarURL) rfl,
    filter_ite_singleton Event.isRoleRemove _ (Event.unhandledGuildMemberUpdate o n) rfl]
  simp

/-- Building a role-add event for a fixed member is injective in the role. -/
lemma roleAdd_injective (o : GuildMember) :
    Function.Injective (Event.guildMemberRoleAdd o) := by
  intro a b h
  simpa using h

/-- Building a role-remove event for a fixed member is injective in the
role. -/
lemma roleRemove_injective (o : GuildMember) :
    Function.Injective (Event.guildMemberRoleRemove o) := by
  intro a b h
  simpa using h

/-- Multiplicity of one role-add event in the handler output equals the
multiplicity of the role among the added roles. -/
lemma count_roleAdd_handle (o n : GuildMember) (ho : o.incomplete = false) (r : Role) :
    (handleGuildMemberUpdateEvent o n).count (Event.guildMemberRoleAdd o r)
      = (n.roles.filter (fun role => !(hasRoleId o role.id))).count r := by
  have hcf :
      List.count (Event.guildMemberRoleAdd o r)
          (List.filter Event.isRoleAdd (handleGuildMemberUpdateEvent o n))
        = List.count (Event.guildMemberRoleAdd o r) (handleGuildMemberUpdateEvent o n) :=
    List.count_filter (by rfl)
  rw [← hcf, filter_isRoleAdd_handle o n ho,
    List.count_map_of_injective _ _ (roleAdd_injective o) r]

/-- Multiplicity of one role-remove event in the handler output equals the
multiplicity of the role among the removed roles. -/
lemma count_roleRemove_handle (o n : GuildMember) (ho : o.incomplete = false) (r : Role) :
    (handleGuildMemberUpdateEvent o n).count (Event.guildMemberRoleRemove o r)
      = (o.roles.filter (fun role => !(hasRoleId n role.id))).count r := by
  have hcf :
      List.count (Event.guildMemberRoleRemove o r)
          (List.filter Event.isRoleRemove (handleGuildMemberUpdateEvent o n))
        = List.count (Event.guildMemberRoleRemove o r) (handleGuildMemberUpdateEvent o n) :=
    List.count_filter (by rfl)
  rw [← hcf, filter_isRoleRemove_handle o n ho,
    List.count_map_of_injective _ _ (roleRemove_injective o) r]

/-- C5: for every non-incomplete snapshot pair (with role ids unique in
each cache, as discord.js collections guarantee), `guildMemberRoleAdd`
(old, role) fires exactly once for each role in the new role set absent
from the old one, in the iteration order of the new role set, and
`guildMemberRoleRemove` (old, role) fires exactly once for each role in
the old role set absent from the new one, in the iteration order of the
old role set. -/
theorem role_diff_events (o n : GuildMember) (ho : o.incomplete = false)
    (hn : (n.roles.map Role.id).Nodup) (hod : (o.roles.map Role.id).Nodup) :
    ((handleGuildMemberUpdateEvent o n).filter Event.isRoleAdd
        = (n.roles.filter (fun role => !(hasRoleId o role.id))).map
          (Event.guildMemberRoleAdd o)) ∧
      ((handleGuildMemberUpdateEvent o n).filter Event.isRoleRemove
        = (o.roles.filter (fun role => !(hasRoleId n role.id))).map
          (Event.guildMemberRoleRemove o)) ∧
      (∀ r ∈ n.roles, hasRoleId o r.id = false →
        (handleGuildMemberUpdateEvent o n).count (Event.guildMemberRoleAdd o r) = 1) ∧
      (∀ r ∈ o.roles, hasRoleId n r.id = false →
        (handleGuildMemberUpdateEvent o n).count (Event.guildMemberRoleRemove o r) = 1) := by
  refine ⟨filter_isRoleAdd_handle o n ho, filter_isRoleRemove_handle o n ho, ?_, ?_⟩
  · intro r hr hno
    rw [count_roleAdd_handle o n ho r]
    exact List.count_eq_one_of_mem ((List.Nodup.of_map Role.id hn).filter _)
      (List.mem_filter.mpr ⟨hr, by simp [hno]⟩)
  · intro r hr hno
    rw [count_roleRemove_handle o n ho r]
    exact List.count_eq_one_of_mem ((List.Nodup.of_map Role.id hod).filter _)
      (List.mem_filter.mpr ⟨hr, by simp [hno]⟩)

/-- Witness for C5: old roles {A, B}, new roles {B, C}; role-add fires once
for C, role-remove fires once for A, in the expected order. -/
theorem role_diff_events_witness :
    oRoles.incomplete = false ∧
      ((handleGuildMemberUpdateEvent oRoles nRoles).filter Event.isRoleAdd
          = (nRoles.roles.filter (fun role => !(hasRoleId oRoles role.id))).map
            (Event.guildMemberRoleAdd oRoles)) ∧
      (handleGuildMemberUpdateEvent oRoles nRoles).count
          (Event.guildMemberRoleAdd oRoles ⟨3, "C"⟩) = 1 ∧
      (handleGuildMemberUpdateEvent oRoles nRoles).count
          (Event.guildMemberRoleRemove oRoles ⟨1, "A"⟩) = 1 :=
  ⟨rfl,
    (role_diff_events oRoles nRoles rfl (by decide) (by decide)).1,
    (role_diff_events oRoles nRoles rfl (by decide) (by decide)).2.2.1 ⟨3, "C"⟩ (by decide)
      (by decide),
    (role_diff_events oRoles nRoles rfl (by decide) (by decide)).2.2.2 ⟨1, "A"⟩ (by decide)
      (by decide)⟩

/-- C8: for every non-incomplete snapshot pair where the old boost
timestamp is absent and the new one is present, `guildMemberBoost` fires
with the new member as payload and `unhandledGuildMemberUpdate` does not
fire in that invocation. -/
theorem boost_fires_no_fallback (o n : GuildMember) (ho : o.incomplete = false)
    (h1 : o.premiumSince = none) (h2 : n.premiumSince.isSome = true) :
    Event.guildMemberBoost n ∈ handleGuildMemberUpdateEvent o n ∧
      (handleGuildMemberUpdateEvent o n).countP (fun e => e.isUnhandled) = 0 := by
  have hmem := boost_mem_specific o n ho h1 h2
  have hne : specificEvents o n ≠ [] := List.ne_nil_of_mem hmem
  rw [handle_of_ne_nil hne]
  exact ⟨hmem,
    List.countP_eq_zero.mpr (fun a ha => by simp [specific_not_unhandled o n a ha])⟩

/-- Witness for C8: old boost timestamp absent, new present. -/
theorem boost_fires_no_fallback_witness :
    sampleOld.premiumSince = none ∧
      Event.guildMemberBoost { sampleNew with premiumSince := some 5 }
          ∈ handleGuildMemberUpdateEvent sampleOld
            { sampleNew with premiumSince := some 5 } ∧
        (handleGuildMemberUpdateEvent sampleOld
            { sampleNew with premiumSince := some 5 }).countP (fun e => e.isUnhandled) = 0 :=
  ⟨rfl, boost_fires_no_fallback sampleOld { sampleNew with premiumSince := some 5 } rfl rfl rfl⟩

/-- C9: the handler is deterministic: two invocations with identical
(old, new) snapshot inputs produce identical emission sequences — the same
events with the same payloads in the same order.  The handler reads only
its two snapshot arguments, so its output is a function of them. -/
theorem handle_deterministic (o₁ n₁ o₂ n₂ : GuildMember) (ho : o₁ = o₂) (hn : n₁ = n₂) :
    handleGuildMemberUpdateEvent o₁ n₁ = handleGuildMemberUpdateEvent o₂ n₂ := by
  rw [ho, hn]

/-- Witness for C9: two runs on the same concrete pair agree. -/
theorem handle_deterministic_witness :
    handleGuildMemberUpdateEvent oRoles nRoles = handleGuildMemberUpdateEvent oRoles nRoles :=
  handle_deterministic oRoles nRoles oRoles nRoles rfl rfl

/-- C10: for every non-incomplete snapshot pair in which the avatar-add
condition holds (old avatar id absent, new present), `guildMemberAvatarAdd`
fires and `guildMemberAvatarUpdate` also fires in the same invocation,
because an absent old avatar id is never strictly equal to a present new
one. -/
theorem avatar_add_fires_with_update (o n : GuildMember) (ho : o.incomplete = false)
    (h1 : o.avatar = none) (h2 : n.avatar.isSome = true) :
    Event.guildMemberAvatarAdd n n.avatarURL ∈ handleGuildMemberUpdateEvent o n ∧
      Event.guildMemberAvatarUpdate n o.avatarURL n.avatarURL
        ∈ handleGuildMemberUpdateEvent o n := by
  have hne : o.avatar ≠ n.avatar := by
    obtain ⟨a, ha⟩ := Option.isSome_iff_exists.mp h2
    rw [h1, ha]
    simp
  constructor
  · refine (mem_handle_iff_of_not_unhandled ?_).mpr (avatarAdd_mem_specific o n ho h1 h2)
    rfl
  · refine (mem_handle_iff_of_not_unhandled ?_).mpr (avatarUpdate_mem_specific o n ho hne)
    rfl

/-- Witness for C10: old avatar absent, new avatar "y"; both avatar-add and
avatar-update fire. -/
theorem avatar_add_fires_with_update_witness :
    sampleOld.avatar = none ∧
      Event.guildMemberAvatarAdd
          { sampleNew with avatar := some "y", avatarURL := some "v" } (some "v")
          ∈ handleGuildMemberUpdateEvent sampleOld
            { sampleNew with avatar := some "y", avatarURL := some "v" } ∧
        Event.guildMemberAvatarUpdate
            { sampleNew with avatar := some "y", avatarURL := some "v" } none (some "v")
          ∈ handleGuildMemberUpdateEvent sampleOld
            { sampleNew with avatar := some "y", avatarURL := some "v" } :=
  ⟨rfl, avatar_add_fires_with_update sampleOld
    { sampleNew with avatar := some "y", avatarURL := some "v" } rfl rfl rfl⟩
